import Mathlib

/-!
Shallow embedding of the PyTracker core (pytracker/core): the device
registry (tracker.py), the pose accessors (device.py), the coordinate
transforms (utils.py) and the pose sample buffer with its fixed-rate
sampling loop (pose_buffer.py, device.py).

Modelling conventions:
* Python dicts become association lists with insertion-ordered semantics
  (assignment replaces in place or appends at the end, deletion removes
  the key), matching Python 3.7+ dict behaviour.
* Python floats become real numbers.
* A statement that can raise is modelled with an explicit error result;
  when an operation mutates state and then raises, the model returns the
  partially mutated state together with the error, mirroring the fact
  that a Python exception does not roll back prior mutations.
-/

set_option linter.unusedVariables false

/-! ## Association-list primitives (model of a Python dict) -/

/-- Model of the Python dict read `d[k]` / membership test `k in d`. -/
def alookup {α β : Type} [DecidableEq α] : List (α × β) → α → Option β
  | [], _ => none
  | p :: t, k => if k = p.1 then some p.2 else alookup t k

/-- Model of the Python dict assignment `d[k] = v`: replaces the value in
place when the key is present, otherwise appends the binding at the end. -/
def insertKey {α β : Type} [DecidableEq α] (l : List (α × β)) (k : α) (v : β) :
    List (α × β) :=
  if (alookup l k).isSome then l.map (fun p => if p.1 = k then (k, v) else p)
  else l ++ [(k, v)]

/-- Model of the Python dict deletion `del d[k]`. -/
def eraseKey {α β : Type} [DecidableEq α] : List (α × β) → α → List (α × β)
  | [], _ => []
  | p :: t, k => if p.1 = k then eraseKey t k else p :: eraseKey t k

/-- Model of the Python `list.remove(x)`: drop the first occurrence. -/
def eraseFirst : List String → String → List String
  | [], _ => []
  | s :: t, x => if s = x then t else s :: eraseFirst t x

/-! ## Device registry (pytracker/core/tracker.py)

The backend (openvr) is modelled by the data the registry reads from it:
a per-slot device class (getTrackedDeviceClass) and, at construction, the
list of connected slot indices (the slots whose pose snapshot has
bDeviceIsConnected set).  Device handles keep the slot index and the class
string; the TrackingReference handle subtype is recorded as a flag. -/

/-- Backend device-class codes (openvr.TrackedDeviceClass_*). -/
inductive DevClassCode
  | invalid
  | hmd
  | controller
  | genericTracker
  | trackingReference
  | displayRedirect
  deriving DecidableEq

/-- The class strings used as keys of Tracker.object_names and stored in
TrackedDevice.device_class: "Tracking Reference", "HMD", "Controller",
"Tracker". -/
inductive DClass
  | trackingReference
  | hmd
  | controller
  | tracker
  deriving DecidableEq

/-- Model of a TrackedDevice / TrackingReference handle: the slot index,
the device class string, and whether the TrackingReference subtype was
used. -/
structure Device where
  index : Nat
  device_class : DClass
  isRef : Bool
  deriving DecidableEq

/-- The Tracker.object_names dict: one name list per device class. -/
structure ObjectNames where
  trackingReference : List String
  hmd : List String
  controller : List String
  tracker : List String
  deriving DecidableEq

def ObjectNames.get (o : ObjectNames) : DClass → List String
  | .trackingReference => o.trackingReference
  | .hmd => o.hmd
  | .controller => o.controller
  | .tracker => o.tracker

def ObjectNames.set (o : ObjectNames) : DClass → List String → ObjectNames
  | .trackingReference, l => { o with trackingReference := l }
  | .hmd, l => { o with hmd := l }
  | .controller, l => { o with controller := l }
  | .tracker, l => { o with tracker := l }

/-- The mutable state of a Tracker: object_names, devices and
device_index_map (the openvr handles themselves carry no registry state). -/
structure Registry where
  object_names : ObjectNames
  devices : List (String × Device)
  device_index_map : List (Nat × String)
  deriving DecidableEq

/-- Registry state right after Tracker.__init__ sets up the empty
containers, before any device is added. -/
def emptyRegistry : Registry := ⟨⟨[], [], [], []⟩, [], []⟩

/-- The branch of Tracker.add_tracked_device selected by the backend class
of the slot: the class string, the generated sequential name and whether
the TrackingReference subtype is used; none when the class is none of
Controller / HMD / GenericTracker / TrackingReference (the if/elif chain
has no else branch). -/
def plannedAdd (cls : Nat → DevClassCode) (r : Registry) (i : Nat) :
    Option (DClass × String × Bool) :=
  match cls i with
  | .controller =>
      some (.controller, "controller_" ++ toString (r.object_names.controller.length + 1), false)
  | .hmd =>
      some (.hmd, "hmd_" ++ toString (r.object_names.hmd.length + 1), false)
  | .genericTracker =>
      some (.tracker, "tracker_" ++ toString (r.object_names.tracker.length + 1), false)
  | .trackingReference =>
      some (.trackingReference,
        "tracking_reference_" ++ toString (r.object_names.trackingReference.length + 1), true)
  | _ => none

/-- The common body of the four add_tracked_device branches: append the
name to the per-class list, store the handle under the name, record the
slot index. -/
def registerDevice (r : Registry) (i : Nat) (c : DClass) (name : String)
    (ref : Bool) : Registry :=
  { object_names := r.object_names.set c (r.object_names.get c ++ [name]),
    devices := insertKey r.devices name ⟨i, c, ref⟩,
    device_index_map := insertKey r.device_index_map i name }

/-- Tracker.add_tracked_device. -/
def addTrackedDevice (cls : Nat → DevClassCode) (r : Registry) (i : Nat) : Registry :=
  match plannedAdd cls r i with
  | some (c, name, ref) => registerDevice r i c name ref
  | none => r

/-- The exceptions Tracker.remove_tracked_device can raise: the explicit
Exception for an untracked index, a KeyError from the devices dict read,
or a ValueError from list.remove.  A raise leaves the registry unchanged
because every mutation happens after all the reads. -/
inductive RemErr
  | invalidIndex
  | keyErr
  | valueErr
  deriving DecidableEq

/-- Tracker.remove_tracked_device: returns the resulting state and the
raised exception, if any. -/
def removeTrackedDevice (r : Registry) (i : Nat) : Registry × Option RemErr :=
  match alookup r.device_index_map i with
  | none => (r, some .invalidIndex)
  | some name =>
    match alookup r.devices name with
    | none => (r, some .keyErr)
    | some d =>
      if name ∈ r.object_names.get d.device_class then
        ({ object_names :=
             r.object_names.set d.device_class
               (eraseFirst (r.object_names.get d.device_class) name),
           devices := eraseKey r.devices name,
           device_index_map := eraseKey r.device_index_map i }, none)
      else (r, some .valueErr)

/-- Tracker.rename_device: `devices[new] = devices.pop(old)` followed by an
in-place replacement of old by new in the per-class name list.  The Bool is
false when dict.pop raises KeyError because the old name is unknown (the
pop happens before any mutation, so the state is returned unchanged); the
slot-index map is never touched. -/
def renameDevice (r : Registry) (old new : String) : Registry × Bool :=
  match alookup r.devices old with
  | none => (r, false)
  | some d =>
      ({ object_names :=
           r.object_names.set d.device_class
             ((r.object_names.get d.device_class).map fun s => if s = old then new else s),
         devices := insertKey (eraseKey r.devices old) new d,
         device_index_map := r.device_index_map }, true)

/-- Tracker.__init__ without a config file: iterate over the slots and call
add_tracked_device on every connected one. -/
def constructNoConfig (cls : Nat → DevClassCode) (connected : List Nat) : Registry :=
  connected.foldl (addTrackedDevice cls) emptyRegistry

/-- The openvr hot-plug events Tracker.poll_vr_events reacts to. -/
inductive VREvent
  | activated (i : Nat)
  | deactivated (i : Nat)
  | other

/-- Tracker.poll_vr_events: activation adds the device, deactivation
removes it only when the index is currently tracked; none records an
exception escaping from remove_tracked_device. -/
def pollVREvents (cls : Nat → DevClassCode) : Registry → List VREvent → Option Registry
  | r, [] => some r
  | r, e :: rest =>
    match e with
    | .activated i => pollVREvents cls (addTrackedDevice cls r i) rest
    | .deactivated i =>
        if (alookup r.device_index_map i).isSome then
          match removeTrackedDevice r i with
          | (r', none) => pollVREvents cls r' rest
          | (_, some _) => none
        else pollVREvents cls r rest
    | .other => pollVREvents cls r rest

/-- Tracker.is_device_connected. -/
def isDeviceConnected (r : Registry) (name : String) : Bool :=
  (alookup r.devices name).isSome

/-- The registry invariant claimed by the spec: the slot-index view and the
name-table view agree in both directions, and each per-class name list
holds exactly the names whose handle has that class. -/
def RegistryCoherent (r : Registry) : Prop :=
  (∀ n d, alookup r.devices n = some d →
      alookup r.device_index_map d.index = some n) ∧
  (∀ i n, alookup r.device_index_map i = some n →
      ∃ d, alookup r.devices n = some d ∧ d.index = i) ∧
  (∀ c n, n ∈ r.object_names.get c ↔
      ∃ d, alookup r.devices n = some d ∧ d.device_class = c)

/-- Strengthening of the invariant that is actually inductive for the
well-behaved operations: the per-class name lists are also duplicate
free. -/
def RegistryInvStrong (r : Registry) : Prop :=
  RegistryCoherent r ∧ ∀ c, (r.object_names.get c).Nodup

/-- A 3x4 pose matrix, indexed as pose_mat[i][j].  Only indices 0..2 and
0..3 are ever read by the code. -/
def Mat : Type := Nat → Nat → ℝ

/-- Model of C99 / Python math.atan2 over the reals (the IEEE signed-zero
distinctions do not exist in the real-number model). -/
noncomputable def atan2 (y x : ℝ) : ℝ :=
  if 0 < x then Real.arctan (y / x)
  else if x < 0 then
    (if 0 ≤ y then Real.arctan (y / x) + Real.pi
     else Real.arctan (y / x) - Real.pi)
  else
    (if 0 < y then Real.pi / 2 else if y < 0 then -(Real.pi / 2) else 0)

/-- utils.convert_to_euler: [x, y, z, yaw, pitch, roll], angles in degrees
via the two-argument arctangent. -/
noncomputable def convert_to_euler (m : Mat) : List ℝ :=
  [m 0 3, m 1 3, m 2 3,
   180 / Real.pi * atan2 (m 1 0) (m 0 0),
   180 / Real.pi * atan2 (-(m 2 0)) (Real.sqrt ((m 2 1) ^ 2 + (m 2 2) ^ 2)),
   180 / Real.pi * atan2 (m 2 1) (m 2 2)]

/-- utils.convert_to_quaternion: [x, y, z, r_w, r_x, r_y, r_z]; none models
the unguarded ZeroDivisionError when the computed r_w is exactly zero. -/
noncomputable def convert_to_quaternion (m : Mat) : Option (List ℝ) :=
  let r_w := Real.sqrt |1 + m 0 0 + m 1 1 + m 2 2| / 2
  if 4 * r_w = 0 then none
  else some [m 0 3, m 1 3, m 2 3, r_w,
    (m 2 1 - m 1 2) / (4 * r_w),
    (m 0 2 - m 2 0) / (4 * r_w),
    (m 1 0 - m 0 1) / (4 * r_w)]

/-! ## Pose snapshots and device accessors (pytracker/core/device.py) -/

/-- One slot of the pose snapshot returned by
getDeviceToAbsoluteTrackingPose. -/
structure PoseEntry where
  bDeviceIsConnected : Bool
  bPoseIsValid : Bool
  mDeviceToAbsoluteTracking : Mat
  vVelocity : ℝ × ℝ × ℝ
  vAngularVelocity : ℝ × ℝ × ℝ

/-- A full pose snapshot: one entry per slot. -/
def Snapshot : Type := Nat → PoseEntry

/-- TrackedDevice.get_pose_euler.  The snapshot argument models the pose
the method ends up using: the caller-supplied one, or the freshly fetched
one when the Python argument is None. -/
noncomputable def Device.get_pose_euler (d : Device) (pose : Snapshot) :
    Option (List ℝ) :=
  if (pose d.index).bPoseIsValid then
    some (convert_to_euler (pose d.index).mDeviceToAbsoluteTracking)
  else none

/-- TrackedDevice.get_pose_matrix. -/
def Device.get_pose_matrix (d : Device) (pose : Snapshot) : Option Mat :=
  if (pose d.index).bPoseIsValid then
    some (pose d.index).mDeviceToAbsoluteTracking
  else none

/-- TrackedDevice.get_velocity. -/
def Device.get_velocity (d : Device) (pose : Snapshot) : Option (ℝ × ℝ × ℝ) :=
  if (pose d.index).bPoseIsValid then some (pose d.index).vVelocity
  else none

/-- TrackedDevice.get_angular_velocity. -/
def Device.get_angular_velocity (d : Device) (pose : Snapshot) :
    Option (ℝ × ℝ × ℝ) :=
  if (pose d.index).bPoseIsValid then some (pose d.index).vAngularVelocity
  else none

/-- TrackedDevice.get_pose_quaternion: ok none is the regular no-data
return for an invalid pose; error () is a ZeroDivisionError escaping from
convert_to_quaternion on a valid but degenerate pose. -/
noncomputable def Device.get_pose_quaternion (d : Device) (pose : Snapshot) :
    Except Unit (Option (List ℝ)) :=
  if (pose d.index).bPoseIsValid then
    match convert_to_quaternion (pose d.index).mDeviceToAbsoluteTracking with
    | some q => .ok (some q)
    | none => .error ()
  else .ok none

/-! ## Pose sample buffer (pytracker/core/pose_buffer.py) -/

/-- PoseSampleBuffer: column-oriented storage; the i counter and the index
column exist in the source (set by __init__ and clear) but are never
touched by append. -/
structure PoseSampleBuffer where
  i : Nat
  index : List ℝ
  time : List ℝ
  x : List ℝ
  y : List ℝ
  z : List ℝ
  yaw : List ℝ
  pitch : List ℝ
  roll : List ℝ
  r_w : List ℝ
  r_x : List ℝ
  r_y : List ℝ
  r_z : List ℝ

/-- PoseSampleBuffer.__init__. -/
def PoseSampleBuffer.empty : PoseSampleBuffer :=
  ⟨0, [], [], [], [], [], [], [], [], [], [], [], []⟩

/-- PoseSampleBuffer.append, statement by statement.  Each Python list
append first evaluates its argument, so a ZeroDivisionError in the
argument aborts append with every earlier column already extended; the
returned Bool is false on such an abort.  The divisors, in evaluation
order: pose_mat[0][0] (yaw), the square root for pitch, pose_mat[2][2]
(roll) and 4 * r_w (quaternion components, after r_w is appended). -/
noncomputable def PoseSampleBuffer.append (b : PoseSampleBuffer) (m : Mat)
    (t : ℝ) : PoseSampleBuffer × Bool :=
  let b1 := { b with time := b.time ++ [t], x := b.x ++ [m 0 3],
                     y := b.y ++ [m 1 3], z := b.z ++ [m 2 3] }
  if m 0 0 = 0 then (b1, false)
  else
    let b2 := { b1 with yaw := b1.yaw ++ [180 / Real.pi * Real.arctan (m 1 0 / m 0 0)] }
    if Real.sqrt ((m 2 1) ^ 2 + (m 2 2) ^ 2) = 0 then (b2, false)
    else
      let b3 := { b2 with pitch := b2.pitch ++
        [180 / Real.pi * Real.arctan (-1 * m 2 0 / Real.sqrt ((m 2 1) ^ 2 + (m 2 2) ^ 2))] }
      if m 2 2 = 0 then (b3, false)
      else
        let b4 := { b3 with roll := b3.roll ++ [180 / Real.pi * Real.arctan (m 2 1 / m 2 2)] }
        let rw := Real.sqrt |1 + m 0 0 + m 1 1 + m 2 2| / 2
        let b5 := { b4 with r_w := b4.r_w ++ [rw] }
        if 4 * rw = 0 then (b5, false)
        else
          ({ b5 with r_x := b5.r_x ++ [(m 2 1 - m 1 2) / (4 * rw)],
                     r_y := b5.r_y ++ [(m 0 2 - m 2 0) / (4 * rw)],
                     r_z := b5.r_z ++ [(m 1 0 - m 0 1) / (4 * rw)] }, true)

/-- PoseSampleBuffer.clear. -/
def PoseSampleBuffer.clear (b : PoseSampleBuffer) : PoseSampleBuffer :=
  ⟨0, [], [], [], [], [], [], [], [], [], [], [], []⟩

/-- PoseSampleBuffer.__len__. -/
def PoseSampleBuffer.len (b : PoseSampleBuffer) : Nat := b.time.length

/-- The eleven derived-field columns all have the same length. -/
def PoseSampleBuffer.lockstep (b : PoseSampleBuffer) : Prop :=
  b.x.length = b.time.length ∧ b.y.length = b.time.length ∧
  b.z.length = b.time.length ∧ b.yaw.length = b.time.length ∧
  b.pitch.length = b.time.length ∧ b.roll.length = b.time.length ∧
  b.r_w.length = b.time.length ∧ b.r_x.length = b.time.length ∧
  b.r_y.length = b.time.length ∧ b.r_z.length = b.time.length

/-! ## Fixed-rate sampling loop (TrackedDevice.sample, device.py)

time.time() is modelled by a stream of clock readings c indexed by how
many calls have happened; the snapshot fetched in an iteration is indexed
by the read count at the moment of the fetch.  Reads per iteration: the
loop-start read, the read in the append timestamp, and the read in the
sleep-time computation (the sleep itself does not touch the buffer).
sample_start is read 0, so iteration j stamps c (2 + 3 j) - c 0.
TrackingReference.sample only prints a warning first and then delegates
to this same loop. -/

noncomputable def sampleLoop (d : Device) (snaps : Nat → Snapshot) (c : Nat → ℝ)
    (t0 : ℝ) (k : Nat) (b : PoseSampleBuffer) : Nat → Option PoseSampleBuffer
  | 0 => some b
  | n + 1 =>
      match PoseSampleBuffer.append b
          ((snaps k d.index).mDeviceToAbsoluteTracking) (c (k + 1) - t0) with
      | (b', true) => sampleLoop d snaps c t0 (k + 3) b' n
      | (_, false) => none

/-- TrackedDevice.sample: interval = 1 / sample_rate raises
ZeroDivisionError when the rate is zero; otherwise run the loop starting
after the sample_start clock read. -/
noncomputable def Device.sample (d : Device) (snaps : Nat → Snapshot)
    (c : Nat → ℝ) (sample_rate : ℝ) (num_samples : Nat) :
    Option PoseSampleBuffer :=
  if sample_rate = 0 then none
  else sampleLoop d snaps c (c 0) 1 PoseSampleBuffer.empty num_samples

/-- A backend reporting a Controller in every slot. -/
def cls0 : Nat → DevClassCode := fun _ => DevClassCode.controller

/-- A backend reporting an invalid class in every slot. -/
def clsInvalid0 : Nat → DevClassCode := fun _ => DevClassCode.invalid

/-- Registry built without a config file from one connected Controller in
slot 0: devices = ("controller_1" at slot 0), index map = (0 to
"controller_1"). -/
def reg1 : Registry := constructNoConfig cls0 [0]

/-- A handle for slot 0. -/
def d0 : Device := ⟨0, DClass.controller, false⟩

/-- The identity 3x4 pose matrix. -/
noncomputable def idMat : Mat := fun i j => if i = j then 1 else 0

/-- The all-zero 3x4 matrix. -/
noncomputable def zeroM : Mat := fun _ _ => 0

/-- Rotation about the z axis by atan2(4/5, -3/5), roughly 126.87 degrees:
a rotation matrix whose yaw lies outside the first quadrant. -/
noncomputable def rotM : Mat := fun i j =>
  match i, j with
  | 0, 0 => -(3 / 5)
  | 0, 1 => -(4 / 5)
  | 1, 0 => 4 / 5
  | 1, 1 => -(3 / 5)
  | 2, 2 => 1
  | _, _ => 0

/-- Rotation by 180 degrees about the z axis: trace of the rotation block
is -1, so 1 + m00 + m11 + m22 = 0. -/
noncomputable def rot180 : Mat := fun i j =>
  match i, j with
  | 0, 0 => -1
  | 1, 1 => -1
  | 2, 2 => 1
  | _, _ => 0

/-- A snapshot that marks every slot pose-invalid. -/
noncomputable def snapInvalid : Snapshot := fun _ => ⟨false, false, zeroM, (0, 0, 0), (0, 0, 0)⟩

/-- A stream of snapshots that always reports a valid identity pose. -/
noncomputable def snaps0 : Nat → Snapshot := fun _ _ => ⟨true, true, idMat, (0, 0, 0), (0, 0, 0)⟩

/-- A constant (hence monotone) clock. -/
noncomputable def c0 : Nat → ℝ := fun _ => 0

/-! ## Supporting lemmas and claim theorems -/
theorem alookup_append_of_none {α β : Type} [DecidableEq α]
    {l₁ : List (α × β)} {k : α} (l₂ : List (α × β))
    (h : alookup l₁ k = none) : alookup (l₁ ++ l₂) k = alookup l₂ k := by
  induction l₁ with
  | nil => simp
  | cons p t ih =>
      by_cases hk : k = p.1
      · simp [alookup, hk] at h
      · simp only [alookup, hk, if_false, List.cons_append] at h ⊢
        exact ih h

theorem alookup_append_of_some {α β : Type} [DecidableEq α]
    {l₁ : List (α × β)} {k : α} {v : β} (l₂ : List (α × β))
    (h : alookup l₁ k = some v) : alookup (l₁ ++ l₂) k = some v := by
  induction l₁ with
  | nil => simp [alookup] at h
  | cons p t ih =>
      by_cases hk : k = p.1
      · simp_all [alookup, hk]
      · simp only [alookup, hk, if_false, List.cons_append] at h ⊢
        exact ih h

theorem alookup_map_replace_self {α β : Type} [DecidableEq α]
    {l : List (α × β)} {k : α} {w : β} (v : β)
    (h : alookup l k = some w) :
    alookup (l.map fun p => if p.1 = k then (k, v) else p) k = some v := by
  induction l with
  | nil => simp [alookup] at h
  | cons p t ih =>
      by_cases hpk : p.1 = k
      · simp [alookup, hpk]
      · have hk : ¬ k = p.1 := fun e => hpk e.symm
        simp only [alookup, hk, if_false] at h
        simpa [alookup, hpk, hk] using ih h

theorem alookup_map_replace_ne {α β : Type} [DecidableEq α]
    (l : List (α × β)) {k k' : α} (v : β) (h : k' ≠ k) :
    alookup (l.map fun p => if p.1 = k then (k, v) else p) k' = alookup l k' := by
  induction l with
  | nil => rfl
  | cons p t ih =>
      by_cases hpk : p.1 = k
      · have h1 : ¬ k' = p.1 := fun e => h (e.trans hpk)
        simp only [List.map_cons, hpk, if_true, alookup, h, h1, if_false, ih]
      · by_cases hq : k' = p.1
        · simp [alookup, hpk, hq]
        · simp only [List.map_cons, hpk, if_false, alookup, hq, ih]

theorem alookup_insertKey_self {α β : Type} [DecidableEq α]
    (l : List (α × β)) (k : α) (v : β) :
    alookup (insertKey l k v) k = some v := by
  cases hs : alookup l k with
  | some w =>
      have : alookup (l.map fun p => if p.1 = k then (k, v) else p) k = some v :=
        alookup_map_replace_self v hs
      simpa [insertKey, hs] using this
  | none =>
      have h2 : alookup (l ++ [(k, v)]) k = some v := by
        rw [alookup_append_of_none _ hs]; simp [alookup]
      simpa [insertKey, hs] using h2

theorem alookup_insertKey_ne {α β : Type} [DecidableEq α]
    (l : List (α × β)) {k k' : α} (v : β) (h : k' ≠ k) :
    alookup (insertKey l k v) k' = alookup l k' := by
  cases hs : alookup l k with
  | some w =>
      have := alookup_map_replace_ne l v h
      simpa [insertKey, hs] using this
  | none =>
      have h2 : alookup (l ++ [(k, v)]) k' = alookup l k' := by
        cases ha : alookup l k' with
        | none => rw [alookup_append_of_none _ ha]; simp [alookup, h]
        | some w => exact alookup_append_of_some _ ha
      simpa [insertKey, hs] using h2

theorem alookup_eraseKey_self {α β : Type} [DecidableEq α]
    (l : List (α × β)) (k : α) : alookup (eraseKey l k) k = none := by
  induction l with
  | nil => rfl
  | cons p t ih =>
      by_cases hk : p.1 = k
      · simpa [eraseKey, hk] using ih
      · have h1 : ¬ k = p.1 := fun e => hk e.symm
        simp only [eraseKey, hk, if_false, alookup, h1, ih]

theorem alookup_eraseKey_ne {α β : Type} [DecidableEq α]
    (l : List (α × β)) {k k' : α} (h : k' ≠ k) :
    alookup (eraseKey l k) k' = alookup l k' := by
  induction l with
  | nil => rfl
  | cons p t ih =>
      by_cases hk : p.1 = k
      · have h1 : ¬ k' = p.1 := fun e => h (e.trans hk)
        simp only [eraseKey, hk, if_true, alookup, h1, if_false, ih, h]
      · by_cases hq : k' = p.1
        · simp [eraseKey, hk, alookup, hq]
        · simp only [eraseKey, hk, if_false, alookup, hq, ih]

theorem mem_eraseFirst_imp {l : List String} {x y : String}
    (h : x ∈ eraseFirst l y) : x ∈ l := by
  induction l with
  | nil => simp [eraseFirst] at h
  | cons s t ih =>
      by_cases hs : s = y
      · simp only [eraseFirst, hs, if_true] at h
        exact List.mem_cons_of_mem _ h
      · simp only [eraseFirst, hs, if_false, List.mem_cons] at h
        rcases h with h | h
        · exact h ▸ List.mem_cons_self _ _
        · exact List.mem_cons_of_mem _ (ih h)

theorem mem_eraseFirst_of_nodup {l : List String} (hl : l.Nodup) (x y : String) :
    x ∈ eraseFirst l y ↔ x ∈ l ∧ x ≠ y := by
  induction l with
  | nil => simp [eraseFirst]
  | cons s t ih =>
      have hnd := List.nodup_cons.mp hl
      by_cases hs : s = y
      · subst hs
        simp only [eraseFirst, if_true, List.mem_cons]
        constructor
        · intro hx
          exact ⟨Or.inr hx, fun e => hnd.1 (e ▸ hx)⟩
        · rintro ⟨(rfl | hx), hne⟩
          · exact absurd rfl hne
          · exact hx
      · simp only [eraseFirst, hs, if_false, List.mem_cons, ih hnd.2]
        constructor
        · rintro (rfl | ⟨hx, hne⟩)
          · exact ⟨Or.inl rfl, hs⟩
          · exact ⟨Or.inr hx, hne⟩
        · rintro ⟨(rfl | hx), hne⟩
          · exact Or.inl rfl
          · exact Or.inr ⟨hx, hne⟩

theorem nodup_eraseFirst {l : List String} (hl : l.Nodup) (y : String) :
    (eraseFirst l y).Nodup := by
  induction l with
  | nil => exact List.nodup_nil
  | cons s t ih =>
      have hnd := List.nodup_cons.mp hl
      by_cases hs : s = y
      · simpa [eraseFirst, hs] using hnd.2
      · simp only [eraseFirst, hs, if_false, List.nodup_cons]
        exact ⟨fun hm => hnd.1 (mem_eraseFirst_imp hm), ih hnd.2⟩

theorem ObjectNames.get_set_self (o : ObjectNames) (c : DClass) (l : List String) :
    (o.set c l).get c = l := by
  cases c <;> rfl

theorem ObjectNames.get_set_ne (o : ObjectNames) {c c' : DClass} (l : List String)
    (h : c' ≠ c) : (o.set c l).get c' = o.get c' := by
  cases c <;> cases c' <;> first | rfl | exact absurd rfl h

/-- C1 counterexample: renaming an unknown old name on a concrete registry
is not a silent no-op: devices.pop raises KeyError, modelled by result
flag false. -/
theorem c1_counterexample : (renameDevice reg1 "ghost" "g2").2 = false := by
  decide

/-- C1 amended: rename_device with an old name absent from the name table
raises KeyError (it is not silent); the failure happens before any
mutation, so the registry is returned unchanged. -/
theorem c1_rename_unknown_raises (r : Registry) (old new : String)
    (h : alookup r.devices old = none) :
    renameDevice r old new = (r, false) := by
  simp [renameDevice, h]

/-- C1 witness: the amended theorem applied to a concrete registry and an
unknown name. -/
theorem c1_rename_unknown_witness :
    alookup reg1.devices "ghost" = none ∧ renameDevice reg1 "ghost" "g2" = (reg1, false) :=
  ⟨by decide, c1_rename_unknown_raises reg1 "ghost" "g2" (by decide)⟩

/-- C4: remove_tracked_device on a slot index that is not in the slot-index
map raises the invalid-index exception and leaves the registry
unchanged. -/
theorem c4_remove_untracked_fails (r : Registry) (i : Nat)
    (h : alookup r.device_index_map i = none) :
    removeTrackedDevice r i = (r, some RemErr.invalidIndex) := by
  simp [removeTrackedDevice, h]

/-- C4 witness: slot 5 is untracked in the concrete registry. -/
theorem c4_remove_untracked_witness :
    alookup reg1.device_index_map 5 = none ∧
    removeTrackedDevice reg1 5 = (reg1, some RemErr.invalidIndex) :=
  ⟨by decide, c4_remove_untracked_fails reg1 5 (by decide)⟩

/-- C10: when the backend class of the slot is none of Controller, HMD,
GenericTracker, TrackingReference, add_tracked_device silently returns and
the whole registry state is unchanged. -/
theorem c10_add_unknown_class_noop (cls : Nat → DevClassCode) (r : Registry) (i : Nat)
    (h1 : cls i ≠ DevClassCode.controller) (h2 : cls i ≠ DevClassCode.hmd)
    (h3 : cls i ≠ DevClassCode.genericTracker)
    (h4 : cls i ≠ DevClassCode.trackingReference) :
    addTrackedDevice cls r i = r := by
  cases hc : cls i
  case controller => exact absurd hc h1
  case hmd => exact absurd hc h2
  case genericTracker => exact absurd hc h3
  case trackingReference => exact absurd hc h4
  case invalid => simp [addTrackedDevice, plannedAdd, hc]
  case displayRedirect => simp [addTrackedDevice, plannedAdd, hc]

/-- C10 witness: an invalid-class slot added to the concrete registry. -/
theorem c10_add_unknown_class_witness :
    clsInvalid0 3 ≠ DevClassCode.controller ∧
    addTrackedDevice clsInvalid0 reg1 3 = reg1 :=
  ⟨by decide,
   c10_add_unknown_class_noop clsInvalid0 reg1 3 (by decide) (by decide) (by decide) (by decide)⟩

/-- C5: when the snapshot marks the pose invalid for the handle's slot,
get_pose_euler, get_pose_matrix, get_velocity, get_angular_velocity and
get_pose_quaternion all return the no-data value rather than raising. -/
theorem c5_invalid_pose_no_data (d : Device) (p : Snapshot)
    (h : (p d.index).bPoseIsValid = false) :
    d.get_pose_euler p = none ∧ d.get_pose_matrix p = none ∧
    d.get_velocity p = none ∧ d.get_angular_velocity p = none ∧
    d.get_pose_quaternion p = Except.ok none := by
  simp [Device.get_pose_euler, Device.get_pose_matrix, Device.get_velocity,
    Device.get_angular_velocity, Device.get_pose_quaternion, h]

/-- C5 witness: a concrete invalid snapshot. -/
theorem c5_invalid_pose_witness :
    (snapInvalid d0.index).bPoseIsValid = false ∧
    (d0.get_pose_euler snapInvalid = none ∧ d0.get_pose_matrix snapInvalid = none ∧
     d0.get_velocity snapInvalid = none ∧ d0.get_angular_velocity snapInvalid = none ∧
     d0.get_pose_quaternion snapInvalid = Except.ok none) :=
  ⟨rfl, c5_invalid_pose_no_data d0 snapInvalid rfl⟩

/-- C6: convert_to_euler returns [x, y, z, yaw, pitch, roll] with the
claimed two-argument arctangent formulas scaled by 180 / pi and the
translation taken from column 3, and it maps the identity matrix to six
zeros. -/
theorem c6_convert_to_euler_spec :
    (∀ m : Mat, convert_to_euler m =
      [m 0 3, m 1 3, m 2 3,
       180 / Real.pi * atan2 (m 1 0) (m 0 0),
       180 / Real.pi * atan2 (-(m 2 0)) (Real.sqrt ((m 2 1) ^ 2 + (m 2 2) ^ 2)),
       180 / Real.pi * atan2 (m 2 1) (m 2 2)]) ∧
    convert_to_euler idMat = [0, 0, 0, 0, 0, 0] := by
  constructor
  · intro m; rfl
  · have h1 : atan2 0 1 = 0 := by
      simp [atan2, Real.arctan_zero]
    have hm : ∀ i j : Nat, i ≠ j → idMat i j = 0 := by
      intro i j hij; simp [idMat, hij]
    have hd : ∀ i : Nat, idMat i i = 1 := by
      intro i; simp [idMat]
    simp only [convert_to_euler, hm 0 3 (by decide), hm 1 3 (by decide),
      hm 2 3 (by decide), hm 1 0 (by decide), hd 0, hm 2 0 (by decide),
      hm 2 1 (by decide), hd 2, neg_zero]
    norm_num [Real.sqrt_one, h1]

/-- C8: a 3x4 matrix with 1 + m00 + m11 + m22 = 0 on which
convert_to_quaternion hits its unguarded division by zero (modelled by the
none result): the degenerate branch is reachable and unhandled. -/
theorem c8_quaternion_degenerate :
    1 + rot180 0 0 + rot180 1 1 + rot180 2 2 = 0 ∧
    convert_to_quaternion rot180 = none := by
  have h00 : rot180 0 0 = -1 := rfl
  have h11 : rot180 1 1 = -1 := rfl
  have h22 : rot180 2 2 = 1 := rfl
  constructor
  · rw [h00, h11, h22]; norm_num
  · simp only [convert_to_quaternion, h00, h11, h22]
    norm_num


theorem PoseSampleBuffer.append_time (b : PoseSampleBuffer) (m : Mat) (t : ℝ) :
    (b.append m t).1.time = b.time ++ [t] := by
  simp only [PoseSampleBuffer.append]
  split_ifs <;> rfl

/-- Appending the identity pose matrix always succeeds and extends every
column: zeros everywhere except the unit quaternion w component. -/
theorem PoseSampleBuffer.append_id (b : PoseSampleBuffer) (t : ℝ) :
    b.append idMat t =
    ({ b with
        time := b.time ++ [t]
        x := b.x ++ [0]
        y := b.y ++ [0]
        z := b.z ++ [0]
        yaw := b.yaw ++ [0]
        pitch := b.pitch ++ [0]
        roll := b.roll ++ [0]
        r_w := b.r_w ++ [1]
        r_x := b.r_x ++ [0]
        r_y := b.r_y ++ [0]
        r_z := b.r_z ++ [0] }, true) := by
  have h4 : Real.sqrt 4 = 2 := by
    rw [show (4 : ℝ) = 2 ^ 2 by norm_num, Real.sqrt_sq (by norm_num : (0 : ℝ) ≤ 2)]
  simp only [PoseSampleBuffer.append, idMat]
  norm_num [h4, Real.sqrt_one, Real.arctan_zero]

/-- C2 counterexample: appending the all-zero matrix to a fresh buffer
terminates abnormally (ZeroDivisionError computing yaw) and leaves the
eleven columns with unequal lengths: time, x, y, z got one entry, the
others none. -/
theorem c2_counterexample :
    (PoseSampleBuffer.empty.append zeroM 0).2 = false ∧
    ¬ (PoseSampleBuffer.empty.append zeroM 0).1.lockstep := by
  have h : PoseSampleBuffer.empty.append zeroM 0 =
      ({ PoseSampleBuffer.empty with time := [0], x := [0], y := [0], z := [0] }, false) := by
    simp [PoseSampleBuffer.append, zeroM, PoseSampleBuffer.empty]
  rw [h]
  refine ⟨rfl, fun hl => ?_⟩
  simpa [PoseSampleBuffer.lockstep, PoseSampleBuffer.empty] using hl.2.2.2.1

/-- C2 amended: the eleven columns have equal length in a fresh buffer,
after clear, and after every append that terminates normally; an append
that terminates abnormally can break the lock-step property (the
counterexample exhibits this). -/
theorem c2_lockstep_amended :
    PoseSampleBuffer.empty.lockstep ∧
    (∀ (b : PoseSampleBuffer) (m : Mat) (t : ℝ),
      b.lockstep → (b.append m t).2 = true → (b.append m t).1.lockstep) ∧
    (∀ b : PoseSampleBuffer, b.clear.lockstep) := by
  refine ⟨by simp [PoseSampleBuffer.lockstep, PoseSampleBuffer.empty], ?_,
    fun b => by simp [PoseSampleBuffer.lockstep, PoseSampleBuffer.clear]⟩
  intro b m t hb
  simp only [PoseSampleBuffer.append]
  split_ifs with h1 h2 h3 h4
  · intro hf; exact absurd hf (by simp)
  · intro hf; exact absurd hf (by simp)
  · intro hf; exact absurd hf (by simp)
  · intro hf; exact absurd hf (by simp)
  · intro _
    unfold PoseSampleBuffer.lockstep at hb ⊢
    simp only [List.length_append, List.length_cons, List.length_nil] at hb ⊢
    omega

/-- C2 witness: the amended lock-step preservation applied to a fresh
buffer and a successful identity-matrix append. -/
theorem c2_lockstep_witness :
    PoseSampleBuffer.empty.lockstep ∧
    (PoseSampleBuffer.empty.append idMat 0).2 = true ∧
    (PoseSampleBuffer.empty.append idMat 0).1.lockstep := by
  have h1 : PoseSampleBuffer.empty.lockstep := c2_lockstep_amended.1
  have h2 : (PoseSampleBuffer.empty.append idMat 0).2 = true := by
    rw [PoseSampleBuffer.append_id]
  exact ⟨h1, h2, c2_lockstep_amended.2.1 PoseSampleBuffer.empty idMat 0 h1 h2⟩

theorem rotM_00 : rotM 0 0 = -(3 / 5) := rfl

theorem rotM_10 : rotM 1 0 = 4 / 5 := rfl

theorem rotM_20 : rotM 2 0 = 0 := rfl

theorem rotM_21 : rotM 2 1 = 0 := rfl

theorem rotM_22 : rotM 2 2 = 1 := rfl

theorem rotM_11 : rotM 1 1 = -(3 / 5) := rfl

/-- C7: on the rotation rotM (yaw outside the first quadrant) the buffer
append path, which uses the single-argument arctangent, records a yaw that
differs from the yaw computed by the standalone convert_to_euler, which
uses the two-argument arctangent; the append itself completes normally. -/
theorem c7_append_euler_diverges :
    (PoseSampleBuffer.empty.append rotM 0).2 = true ∧
    (PoseSampleBuffer.empty.append rotM 0).1.yaw.getD 0 0 ≠
      (convert_to_euler rotM).getD 3 0 := by
  have hpos : (0 : ℝ) < Real.sqrt (4 / 5) := Real.sqrt_pos.mpr (by norm_num)
  have habs : |1 + rotM 0 0 + rotM 1 1 + rotM 2 2| = (4 / 5 : ℝ) := by
    rw [rotM_00, rotM_11, rotM_22]; norm_num
  have h180 : (180 : ℝ) / Real.pi ≠ 0 := div_ne_zero (by norm_num) Real.pi_ne_zero
  constructor
  · simp only [PoseSampleBuffer.append, rotM_00, rotM_10, rotM_20, rotM_21, rotM_22,
      rotM_11, habs]
    norm_num [Real.sqrt_one, hpos.ne']
  · simp only [PoseSampleBuffer.append, convert_to_euler, atan2, rotM_00, rotM_10,
      rotM_20, rotM_21, rotM_22, rotM_11, habs, PoseSampleBuffer.empty]
    norm_num [Real.sqrt_one, hpos.ne']
    intro heq
    field_simp [Real.pi_ne_zero] at heq
    nlinarith [Real.pi_pos, heq]

theorem chain_le_map_range (f : Nat → ℝ) (hf : ∀ i, f i ≤ f (i + 1)) (n : Nat) :
    List.Chain' (· ≤ ·) ((List.range n).map f) := by
  rw [List.chain'_iff_get]
  intro i hi
  simp only [List.get_eq_getElem, List.getElem_map, List.getElem_range]
  exact hf i

/-- The time column produced by the sampling loop: one relative timestamp
per iteration, read 3 j + k + 1 of the clock for iteration j when the loop
starts at read index k. -/
theorem sampleLoop_time (d : Device) (snaps : Nat → Snapshot) (c : Nat → ℝ)
    (t0 : ℝ) : ∀ (n k : Nat) (b buf : PoseSampleBuffer),
    sampleLoop d snaps c t0 k b n = some buf →
    buf.time = b.time ++ ((List.range n).map fun j => c (k + 3 * j + 1) - t0)
  | 0, k, b, buf => by
      intro h
      simp only [sampleLoop, Option.some.injEq] at h
      simp [← h]
  | n + 1, k, b, buf => by
      intro h
      rw [sampleLoop] at h
      rcases ha : PoseSampleBuffer.append b
          ((snaps k d.index).mDeviceToAbsoluteTracking) (c (k + 1) - t0) with ⟨b', ok⟩
      rw [ha] at h
      cases ok with
      | false => simp at h
      | true =>
          simp only at h
          have ht := sampleLoop_time d snaps c t0 n (k + 3) b' buf h
          have hb' : b'.time = b.time ++ [c (k + 1) - t0] := by
            have := PoseSampleBuffer.append_time b
              ((snaps k d.index).mDeviceToAbsoluteTracking) (c (k + 1) - t0)
            rw [ha] at this
            exact this
          have hfun : ((List.range n).map fun j => c (k + 3 + 3 * j + 1) - t0) =
              (List.range n).map fun j => c (k + 3 * (j + 1) + 1) - t0 := by
            refine List.map_congr_left fun j _ => ?_
            have : k + 3 + 3 * j + 1 = k + 3 * (j + 1) + 1 := by ring
            rw [this]
          rw [ht, hb', hfun, List.range_succ_eq_map]
          simp only [List.map_cons, List.map_map, List.append_assoc, List.singleton_append]
          have : k + 3 * 0 + 1 = k + 1 := by ring
          rw [this]
          rfl

/-- C9: a sampling run of 10 samples at rate 100 that completes normally
fills the buffer with exactly 10 entries whose relative timestamps are
non-decreasing, provided the clock readings are non-decreasing. -/
theorem c9_sample_ten_entries (d : Device) (snaps : Nat → Snapshot)
    (c : Nat → ℝ) (buf : PoseSampleBuffer) (hc : Monotone c)
    (h : d.sample snaps c 100 10 = some buf) :
    buf.len = 10 ∧ List.Chain' (· ≤ ·) buf.time := by
  rw [Device.sample, if_neg (by norm_num : (100 : ℝ) ≠ 0)] at h
  have ht := sampleLoop_time d snaps c (c 0) 10 1 PoseSampleBuffer.empty buf h
  simp only [PoseSampleBuffer.empty, List.nil_append] at ht
  constructor
  · rw [PoseSampleBuffer.len, ht]
    simp
  · rw [ht]
    refine chain_le_map_range _ (fun i => ?_) 10
    have : 1 + 3 * i + 1 ≤ 1 + 3 * (i + 1) + 1 := by omega
    exact sub_le_sub_right (hc this) (c 0)

/-- With the always-valid identity snapshots every iteration of the loop
succeeds, for any clock. -/
theorem sampleLoop_snaps0_total (d : Device) (c : Nat → ℝ) (t0 : ℝ) :
    ∀ (n k : Nat) (b : PoseSampleBuffer),
    ∃ buf, sampleLoop d snaps0 c t0 k b n = some buf
  | 0, k, b => ⟨b, rfl⟩
  | n + 1, k, b => by
      obtain ⟨buf, hb⟩ := sampleLoop_snaps0_total d c t0 n (k + 3)
        ({ b with
            time := b.time ++ [c (k + 1) - t0]
            x := b.x ++ [0]
            y := b.y ++ [0]
            z := b.z ++ [0]
            yaw := b.yaw ++ [0]
            pitch := b.pitch ++ [0]
            roll := b.roll ++ [0]
            r_w := b.r_w ++ [1]
            r_x := b.r_x ++ [0]
            r_y := b.r_y ++ [0]
            r_z := b.r_z ++ [0] })
      refine ⟨buf, ?_⟩
      rw [sampleLoop]
      have hmat : (snaps0 k d.index).mDeviceToAbsoluteTracking = idMat := rfl
      rw [hmat, PoseSampleBuffer.append_id]
      exact hb

/-- C9 witness: the sampling theorem applied to the constant clock and the
always-valid identity snapshots. -/
theorem c9_sample_ten_witness :
    Monotone c0 ∧
    ∃ buf, d0.sample snaps0 c0 100 10 = some buf ∧
      buf.len = 10 ∧ List.Chain' (· ≤ ·) buf.time := by
  have hmono : Monotone c0 := monotone_const
  have hrun : ∃ buf, d0.sample snaps0 c0 100 10 = some buf := by
    rw [Device.sample, if_neg (by norm_num : (100 : ℝ) ≠ 0)]
    exact sampleLoop_snaps0_total d0 c0 (c0 0) 10 1 PoseSampleBuffer.empty
  obtain ⟨buf, hb⟩ := hrun
  exact ⟨hmono, buf, hb, c9_sample_ten_entries d0 snaps0 c0 buf hmono hb⟩

theorem registryInvStrong_mk (o : ObjectNames) (dv : List (String × Device))
    (mp : List (Nat × String))
    (hA : ∀ n d, alookup dv n = some d → alookup mp d.index = some n)
    (hB : ∀ i n, alookup mp i = some n → ∃ d, alookup dv n = some d ∧ d.index = i)
    (hC : ∀ c n, n ∈ o.get c ↔ ∃ d, alookup dv n = some d ∧ d.device_class = c)
    (hN : ∀ c, (o.get c).Nodup) :
    RegistryInvStrong ⟨o, dv, mp⟩ :=
  ⟨⟨hA, hB, hC⟩, hN⟩

theorem emptyRegistry_invariant : RegistryInvStrong emptyRegistry := by
  refine ⟨⟨?_, ?_, ?_⟩, ?_⟩
  · intro n d h; simp [emptyRegistry, alookup] at h
  · intro i n h; simp [emptyRegistry, alookup] at h
  · intro c n
    cases c <;> simp [emptyRegistry, ObjectNames.get, alookup]
  · intro c; cases c <;> simp [emptyRegistry, ObjectNames.get]

/-- add_tracked_device keeps the strengthened invariant when the slot is
not yet tracked and the generated name is not yet in use. -/
theorem registerDevice_preserves (r : Registry) (i : Nat) (c : DClass)
    (name : String) (ref : Bool) (hr : RegistryInvStrong r)
    (hifresh : alookup r.device_index_map i = none)
    (hnfresh : alookup r.devices name = none) :
    RegistryInvStrong (registerDevice r i c name ref) := by
  obtain ⟨⟨hA, hB, hC⟩, hN⟩ := hr
  have hA' : ∀ n d', alookup (insertKey r.devices name ⟨i, c, ref⟩) n = some d' →
      alookup (insertKey r.device_index_map i name) d'.index = some n := by
    intro n d' hnd'
    by_cases hn : n = name
    · subst hn
      rw [alookup_insertKey_self] at hnd'
      obtain rfl := Option.some.inj hnd'
      exact alookup_insertKey_self _ _ _
    · rw [alookup_insertKey_ne _ _ hn] at hnd'
      have hmap := hA n d' hnd'
      have hne : d'.index ≠ i := by
        intro he; rw [he, hifresh] at hmap; exact Option.noConfusion hmap
      rw [alookup_insertKey_ne _ _ hne]
      exact hmap
  have hB' : ∀ i' n, alookup (insertKey r.device_index_map i name) i' = some n →
      ∃ d', alookup (insertKey r.devices name ⟨i, c, ref⟩) n = some d' ∧ d'.index = i' := by
    intro i' n hin
    by_cases hi : i' = i
    · subst hi
      rw [alookup_insertKey_self] at hin
      obtain rfl := Option.some.inj hin
      exact ⟨⟨i', c, ref⟩, alookup_insertKey_self _ _ _, rfl⟩
    · rw [alookup_insertKey_ne _ _ hi] at hin
      obtain ⟨d', hd', hidx⟩ := hB i' n hin
      have hne : n ≠ name := by
        intro he; rw [he, hnfresh] at hd'; exact Option.noConfusion hd'
      refine ⟨d', ?_, hidx⟩
      rw [alookup_insertKey_ne _ _ hne]
      exact hd'
  have hC' : ∀ c' n, n ∈ (r.object_names.set c (r.object_names.get c ++ [name])).get c' ↔
      ∃ d', alookup (insertKey r.devices name ⟨i, c, ref⟩) n = some d' ∧
        d'.device_class = c' := by
    intro c' n
    by_cases hc : c' = c
    · subst hc
      rw [ObjectNames.get_set_self]
      constructor
      · intro hmem
        rcases List.mem_append.mp hmem with hmem | hmem
        · obtain ⟨d', hd', hcls⟩ := (hC c' n).mp hmem
          have hne : n ≠ name := by
            intro he; rw [he, hnfresh] at hd'; exact Option.noConfusion hd'
          refine ⟨d', ?_, hcls⟩
          rw [alookup_insertKey_ne _ _ hne]
          exact hd'
        · have hn : n = name := by simpa using hmem
          subst hn
          exact ⟨⟨i, c', ref⟩, alookup_insertKey_self _ _ _, rfl⟩
      · rintro ⟨d', hd', hcls⟩
        by_cases hn : n = name
        · subst hn
          exact List.mem_append.mpr (Or.inr (by simp))
        · rw [alookup_insertKey_ne _ _ hn] at hd'
          exact List.mem_append.mpr (Or.inl ((hC c' n).mpr ⟨d', hd', hcls⟩))
    · rw [ObjectNames.get_set_ne _ _ hc]
      constructor
      · intro hmem
        obtain ⟨d', hd', hcls⟩ := (hC c' n).mp hmem
        have hne : n ≠ name := by
          intro he; rw [he, hnfresh] at hd'; exact Option.noConfusion hd'
        refine ⟨d', ?_, hcls⟩
        rw [alookup_insertKey_ne _ _ hne]
        exact hd'
      · rintro ⟨d', hd', hcls⟩
        by_cases hn : n = name
        · subst hn
          rw [alookup_insertKey_self] at hd'
          obtain rfl := Option.some.inj hd'
          exact absurd hcls.symm hc
        · rw [alookup_insertKey_ne _ _ hn] at hd'
          exact (hC c' n).mpr ⟨d', hd', hcls⟩
  have hN' : ∀ c', ((r.object_names.set c (r.object_names.get c ++ [name])).get c').Nodup := by
    intro c'
    by_cases hc : c' = c
    · subst hc
      rw [ObjectNames.get_set_self, List.nodup_append]
      refine ⟨hN c', List.nodup_singleton _, ?_⟩
      intro x hx hx'
      have hxn : x = name := by simpa using hx'
      subst hxn
      obtain ⟨d', hd', _⟩ := (hC c' x).mp hx
      rw [hnfresh] at hd'
      exact Option.noConfusion hd'
    · rw [ObjectNames.get_set_ne _ _ hc]
      exact hN c'
  exact registryInvStrong_mk _ _ _ hA' hB' hC' hN'

/-- remove_tracked_device keeps the strengthened invariant in every branch,
including the raising ones, which leave the state unchanged. -/
theorem removeTrackedDevice_preserves (r : Registry) (i : Nat)
    (hr : RegistryInvStrong r) : RegistryInvStrong (removeTrackedDevice r i).1 := by
  obtain ⟨⟨hA, hB, hC⟩, hN⟩ := hr
  cases h1 : alookup r.device_index_map i with
  | none =>
      simp only [removeTrackedDevice, h1]
      exact ⟨⟨hA, hB, hC⟩, hN⟩
  | some name =>
      cases h2 : alookup r.devices name with
      | none =>
          simp only [removeTrackedDevice, h1, h2]
          exact ⟨⟨hA, hB, hC⟩, hN⟩
      | some d =>
          by_cases hmem : name ∈ r.object_names.get d.device_class
          · have hdi : d.index = i := by
              obtain ⟨d₀, hd₀, hidx⟩ := hB i name h1
              rw [h2] at hd₀
              obtain rfl := Option.some.inj hd₀
              exact hidx
            have hstep : removeTrackedDevice r i =
                ({ object_names := r.object_names.set d.device_class
                     (eraseFirst (r.object_names.get d.device_class) name),
                   devices := eraseKey r.devices name,
                   device_index_map := eraseKey r.device_index_map i }, none) := by
              simp only [removeTrackedDevice, h1, h2, if_pos hmem]
            rw [hstep]
            have hA' : ∀ n d', alookup (eraseKey r.devices name) n = some d' →
                alookup (eraseKey r.device_index_map i) d'.index = some n := by
              intro n d' hnd'
              by_cases hn : n = name
              · subst hn
                rw [alookup_eraseKey_self] at hnd'
                exact Option.noConfusion hnd'
              · rw [alookup_eraseKey_ne _ hn] at hnd'
                have hmap := hA n d' hnd'
                have hne : d'.index ≠ i := by
                  intro he
                  rw [he, h1] at hmap
                  exact hn (Option.some.inj hmap).symm
                rw [alookup_eraseKey_ne _ hne]
                exact hmap
            have hB' : ∀ i' n', alookup (eraseKey r.device_index_map i) i' = some n' →
                ∃ d', alookup (eraseKey r.devices name) n' = some d' ∧ d'.index = i' := by
              intro i' n' hin
              by_cases hi : i' = i
              · subst hi
                rw [alookup_eraseKey_self] at hin
                exact Option.noConfusion hin
              · rw [alookup_eraseKey_ne _ hi] at hin
                obtain ⟨d', hd', hidx⟩ := hB i' n' hin
                have hne : n' ≠ name := by
                  intro he
                  subst he
                  rw [h2] at hd'
                  obtain rfl := Option.some.inj hd'
                  exact hi (hidx ▸ hdi ▸ rfl)
                refine ⟨d', ?_, hidx⟩
                rw [alookup_eraseKey_ne _ hne]
                exact hd'
            have hC' : ∀ c' n, n ∈ (r.object_names.set d.device_class
                  (eraseFirst (r.object_names.get d.device_class) name)).get c' ↔
                ∃ d', alookup (eraseKey r.devices name) n = some d' ∧
                  d'.device_class = c' := by
              intro c' n
              by_cases hc : c' = d.device_class
              · subst hc
                rw [ObjectNames.get_set_self, mem_eraseFirst_of_nodup (hN _) n name]
                constructor
                · rintro ⟨hmem', hne⟩
                  obtain ⟨d', hd', hcls⟩ := (hC _ n).mp hmem'
                  refine ⟨d', ?_, hcls⟩
                  rw [alookup_eraseKey_ne _ hne]
                  exact hd'
                · rintro ⟨d', hd', hcls⟩
                  by_cases hn : n = name
                  · subst hn
                    rw [alookup_eraseKey_self] at hd'
                    exact Option.noConfusion hd'
                  · rw [alookup_eraseKey_ne _ hn] at hd'
                    exact ⟨(hC _ n).mpr ⟨d', hd', hcls⟩, hn⟩
              · rw [ObjectNames.get_set_ne _ _ hc]
                constructor
                · intro hmem'
                  obtain ⟨d', hd', hcls⟩ := (hC c' n).mp hmem'
                  have hn : n ≠ name := by
                    intro he
                    subst he
                    rw [h2] at hd'
                    obtain rfl := Option.some.inj hd'
                    exact hc hcls.symm
                  refine ⟨d', ?_, hcls⟩
                  rw [alookup_eraseKey_ne _ hn]
                  exact hd'
                · rintro ⟨d', hd', hcls⟩
                  by_cases hn : n = name
                  · subst hn
                    rw [alookup_eraseKey_self] at hd'
                    exact Option.noConfusion hd'
                  · rw [alookup_eraseKey_ne _ hn] at hd'
                    exact (hC c' n).mpr ⟨d', hd', hcls⟩
            have hN' : ∀ c', ((r.object_names.set d.device_class
                (eraseFirst (r.object_names.get d.device_class) name)).get c').Nodup := by
              intro c'
              by_cases hc : c' = d.device_class
              · subst hc
                rw [ObjectNames.get_set_self]
                exact nodup_eraseFirst (hN _) name
              · rw [ObjectNames.get_set_ne _ _ hc]
                exact hN c'
            exact registryInvStrong_mk _ _ _ hA' hB' hC' hN'
          · simp only [removeTrackedDevice, h1, h2, if_neg hmem]
            exact ⟨⟨hA, hB, hC⟩, hN⟩

/-- C3 counterexample: construct the registry from one connected Controller
(no config file) and perform one perfectly ordinary, successful rename.
rename_device updates the name table and the per-class list but never the
slot-index map, so afterwards the map still binds slot 0 to the stale old
name and the spec invariant fails: the two views have diverged. -/
theorem c3_counterexample :
    (renameDevice (constructNoConfig cls0 [0]) "controller_1" "c").2 = true ∧
    ¬ RegistryCoherent (renameDevice (constructNoConfig cls0 [0]) "controller_1" "c").1 := by
  constructor
  · decide
  · intro h
    have h1 := h.1 "c" ⟨0, DClass.controller, false⟩ (by decide)
    exact absurd h1 (by decide)

/-- C3 amended: the invariant (both directions of slot-index / name-table
agreement plus exact, duplicate-free per-class name lists) holds for the
freshly initialised registry and is preserved by remove_tracked_device
unconditionally and by add_tracked_device whenever the slot is not already
tracked and the auto-generated name is not already in use (as during
normal construction).  It is not preserved by arbitrary operation
sequences: rename_device never updates the slot-index map, which the
counterexample exhibits. -/
theorem c3_invariant_amended :
    RegistryInvStrong emptyRegistry ∧
    (∀ (cls : Nat → DevClassCode) (r : Registry) (i : Nat),
      RegistryInvStrong r →
      alookup r.device_index_map i = none →
      (∀ c name ref, plannedAdd cls r i = some (c, name, ref) →
        alookup r.devices name = none) →
      RegistryInvStrong (addTrackedDevice cls r i)) ∧
    (∀ (r : Registry) (i : Nat), RegistryInvStrong r →
      RegistryInvStrong (removeTrackedDevice r i).1) := by
  refine ⟨emptyRegistry_invariant, ?_, removeTrackedDevice_preserves⟩
  intro cls r i hr hif hfresh
  cases hp : plannedAdd cls r i with
  | none => simpa only [addTrackedDevice, hp] using hr
  | some trip =>
      obtain ⟨c, name, ref⟩ := trip
      simp only [addTrackedDevice, hp]
      exact registerDevice_preserves r i c name ref hr hif (hfresh c name ref hp)

/-- C3 witness: the amended invariant theorem applied concretely: the empty
registry, one add of a Controller at the untracked slot 0 with the fresh
generated name, then one remove. -/
theorem c3_invariant_witness :
    RegistryInvStrong (addTrackedDevice cls0 emptyRegistry 0) ∧
    RegistryInvStrong (removeTrackedDevice (addTrackedDevice cls0 emptyRegistry 0) 0).1 := by
  have h1 : RegistryInvStrong emptyRegistry := c3_invariant_amended.1
  have h2 : alookup emptyRegistry.device_index_map 0 = none := rfl
  have h3 : ∀ c name ref, plannedAdd cls0 emptyRegistry 0 = some (c, name, ref) →
      alookup emptyRegistry.devices name = none := fun _ _ _ _ => rfl
  have h4 := c3_invariant_amended.2.1 cls0 emptyRegistry 0 h1 h2 h3
  exact ⟨h4, c3_invariant_amended.2.2 _ 0 h4⟩
